import Mathlib

/-!
Verification of the client-side version store of the Image-Editor repository.

The definitions below are a shallow embedding of the zustand store
(useImageStore: addVersion, getCurrentRootId, getCurrentVersionHistory,
deleteVersion, clearVersions, onRehydrateStorage) and of the upload API
route (app/api/upload-version/route.ts).  JavaScript machine values are
modelled as follows: strings as String, Date objects and Date.now() as
Nat (milliseconds), possibly-absent fields as Option, thrown exceptions
as Except, and the unbounded while loop of the parent walk as a
fuel-indexed iteration (walkFuel) whose result is none exactly when the
loop has not exited within the given number of iterations.
-/

/-- The closed union type of version kinds:
upload | flux | color | crop | metadata (the spec calls flux ai_edit). -/
inductive VType
  | upload
  | flux
  | color
  | crop
  | metadata
deriving DecidableEq, Repr

/-- The string stored in the type field of a version. -/
def VType.toStr : VType → String
  | .upload => "upload"
  | .flux => "flux"
  | .color => "color"
  | .crop => "crop"
  | .metadata => "metadata"

/-- The parts of the open metadata bag that the store logic reads:
prompt and azureMetadata.  The remaining optional fields (colorSettings,
cropSettings, tags, description, title, and so on) are never read by the
store logic and are collapsed into the association list other. -/
structure MetaBag where
  prompt : Option String
  azureMetadata : Option (List (String × String))
  other : List (String × String)
deriving DecidableEq, Repr

/-- An ImageVersion node of the edit graph, as declared in the store:
id, type, timestamp (a Date, modelled in epoch milliseconds), imageUrl,
optional azureBlobPath, optional metadata, optional parent id. -/
structure ImageVersion where
  id : String
  type : VType
  timestamp : Nat
  imageUrl : String
  azureBlobPath : Option String
  metadata : Option MetaBag
  parent : Option String
deriving DecidableEq, Repr

/-- The store state: cursor, node list, processing flag, error slot,
hydration flag and the optional branch root override. -/
structure StoreState where
  currentVersion : Option String
  versions : List ImageVersion
  isProcessing : Bool
  error : Option String
  isHydrated : Bool
  branchRootId : Option String
deriving DecidableEq, Repr

/-- The initial store state (the literal at the top of the create call). -/
def emptyState : StoreState :=
  { currentVersion := none, versions := [], isProcessing := false,
    error := none, isHydrated := false, branchRootId := none }

/-- JavaScript string.startsWith, modelled on the character list of the
string. -/
def strStartsWith (s p : String) : Bool :=
  s.data.take p.data.length = p.data

/-- JavaScript truthiness of a string-or-null value: null, undefined and
the empty string are falsy. -/
def strTruthy : Option String → Bool
  | none => false
  | some s => s ≠ ""

/-- Lookup in the Map built by new Map(versions.map(v, [v.id, v])).
Later entries overwrite earlier ones with the same id, so the lookup
returns the last matching element. -/
def mapGet (versions : List ImageVersion) (key : String) : Option ImageVersion :=
  versions.foldl (fun acc v => if v.id = key then some v else acc) none

/-- getCurrentVersion: find the node whose id equals the cursor. -/
def getCurrentVersion (s : StoreState) : Option ImageVersion :=
  match s.currentVersion with
  | none => none
  | some c => s.versions.find? (fun v => v.id = c)

/-- getVersionHistory: the full node list in insertion order. -/
def getVersionHistory (s : StoreState) : List ImageVersion :=
  s.versions

/-- One iteration of the parent walk
while (node.parent and idToVersion.get(node.parent)) node = get(node.parent).
Returns none when the loop condition is false (walk finished at node). -/
def stepParent (versions : List ImageVersion) (node : ImageVersion) :
    Option ImageVersion :=
  match node.parent with
  | none => none
  | some p => if p = "" then none else mapGet versions p

/-- The parent walk with fuel: some r means the while loop exited with
final node r within the given number of iterations; none means the loop
was still running when the fuel ran out.  The source loop carries no
visited-set guard, so it diverges exactly when this returns none for
every fuel. -/
def walkFuel (versions : List ImageVersion) : Nat → ImageVersion → Option ImageVersion
  | 0, node =>
    match stepParent versions node with
    | none => some node
    | some _ => none
  | fuel+1, node =>
    match stepParent versions node with
    | none => some node
    | some next => walkFuel versions fuel next

/-- getCurrentRootId: return branchRootId if truthy, null if there is no
cursor or the cursor id is unknown, otherwise the id of the node reached
by the parent walk from the cursor.  Fuel-indexed because the source
walk is an unguarded while loop. -/
def getCurrentRootIdFuel (s : StoreState) (fuel : Nat) : Option (Option String) :=
  if strTruthy s.branchRootId then some s.branchRootId
  else
    match s.currentVersion with
    | none => some none
    | some c =>
      if c = "" then some none
      else
        match mapGet s.versions c with
        | none => some none
        | some node => (walkFuel s.versions fuel node).map (fun r => some r.id)

/-- The id of the natural root of a version: the endpoint of the parent
walk from it, when the walk finishes within the fuel. -/
def versionRootIdFuel (versions : List ImageVersion) (fuel : Nat)
    (v : ImageVersion) : Option String :=
  (walkFuel versions fuel v).map (fun n => n.id)

/-- The filter of getCurrentVersionHistory: keep the versions whose
parent walk ends at rootId (hasSameRoot).  Returns none when any of the
per-element walks fails to finish within the fuel. -/
def filterSameRootAux (all : List ImageVersion) (fuel : Nat) (rootId : String) :
    List ImageVersion → Option (List ImageVersion)
  | [] => some []
  | v :: rest =>
    match walkFuel all fuel v with
    | none => none
    | some r =>
      match filterSameRootAux all fuel rootId rest with
      | none => none
      | some tail => some (if r.id = rootId then v :: tail else tail)

/-- The comparison used by the sort of getCurrentVersionHistory:
ascending by timestamp. -/
def timeLe (a b : ImageVersion) : Prop :=
  a.timestamp ≤ b.timestamp

instance : DecidableRel timeLe := fun a b => Nat.decLe a.timestamp b.timestamp

instance : IsTotal ImageVersion timeLe :=
  ⟨fun a b => Nat.le_total a.timestamp b.timestamp⟩

instance : IsTrans ImageVersion timeLe :=
  ⟨fun _ _ _ hab hbc => Nat.le_trans hab hbc⟩

/-- The array sort with comparator (a, b) => ta - tb.  JavaScript sort
is stable, and insertion sort with a non-strict comparison is the stable
sort for this total preorder. -/
def sortByTime (l : List ImageVersion) : List ImageVersion :=
  l.insertionSort timeLe

/-- getCurrentVersionHistory: resolve the current root id, return [] when
it is null, otherwise filter the node list to the versions with that
root and sort them ascending by timestamp.  Fuel-indexed like the walks
it performs. -/
def getCurrentVersionHistoryFuel (s : StoreState) (fuel : Nat) :
    Option (List ImageVersion) :=
  match getCurrentRootIdFuel s fuel with
  | none => none
  | some none => some []
  | some (some rootId) =>
    (filterSameRootAux s.versions fuel rootId s.versions).map sortByTime

/-- clearVersions: empty the node list and clear cursor, error and
branch root. -/
def clearVersions (s : StoreState) : StoreState :=
  { s with versions := [], currentVersion := none, error := none,
           branchRootId := none }

/-- A node whose parent field points at the other node of a two-cycle. -/
def vCycA : ImageVersion :=
  { id := "a", type := .upload, timestamp := 0, imageUrl := "https://x/a",
    azureBlobPath := none, metadata := none, parent := some "b" }

/-- The second node of the two-cycle. -/
def vCycB : ImageVersion :=
  { id := "b", type := .flux, timestamp := 1, imageUrl := "https://x/b",
    azureBlobPath := none, metadata := none, parent := some "a" }

/-- The two-element version set whose parent links form a cycle. -/
def cycVersions : List ImageVersion := [vCycA, vCycB]

/-- A store whose cursor sits on the cyclic pair and whose branch root is
unset, so getCurrentRootId must run the parent walk. -/
def cycState : StoreState :=
  { emptyState with versions := cycVersions, currentVersion := some "a" }

theorem walk_cycle (fuel : Nat) :
    walkFuel cycVersions fuel vCycA = none ∧ walkFuel cycVersions fuel vCycB = none := by
  induction fuel with
  | zero => exact ⟨rfl, rfl⟩
  | succ f ih => exact ⟨ih.2, ih.1⟩

/-- C1: the claim asserts that getCurrentRootId terminates on every
version set, including one whose parent links form a cycle.  The source
walk has no visited-set guard: on the concrete two-node cycle the while
loop never exits, which this theorem states as the fuel-indexed walk
returning none for every amount of fuel. -/
theorem getCurrentRootId_cycle_diverges (fuel : Nat) :
    getCurrentRootIdFuel cycState fuel = none := by
  show (walkFuel cycVersions fuel vCycA).map (fun r => some r.id) = none
  rw [(walk_cycle fuel).1]
  rfl

/-- Little-endian decimal digit characters of a number, with enough fuel
to consume every digit.  Structural in the fuel so that it evaluates in
the kernel. -/
def decDigitsFuel : Nat → Nat → List Char
  | 0, _ => []
  | fuel+1, n => if n = 0 then [] else Nat.digitChar (n % 10) :: decDigitsFuel fuel (n / 10)

/-- Decimal rendering of a number, as the JavaScript template literal
renders Date.now(). -/
def natToDecimal (n : Nat) : String :=
  if n = 0 then "0" else String.mk ((decDigitsFuel n n).reverse)

/-- The id assigned at creation: the template literal v followed by the
decimal rendering of Date.now(). -/
def mkId (now : Nat) : String :=
  "v" ++ natToDecimal now

/-- The argument of addVersion: an ImageVersion with id and timestamp
omitted. -/
structure Draft where
  type : VType
  imageUrl : String
  azureBlobPath : Option String
  metadata : Option MetaBag
  parent : Option String
deriving DecidableEq, Repr

/-- The node built at the top of addVersion: the draft plus the assigned
id and creation timestamp. -/
def mkNewVersion (now : Nat) (draft : Draft) : ImageVersion :=
  { id := mkId now, type := draft.type, timestamp := now,
    imageUrl := draft.imageUrl, azureBlobPath := draft.azureBlobPath,
    metadata := draft.metadata, parent := draft.parent }

/-- The Azure storage service as the upload route sees it: whether it is
configured, the outcome of one uploadImage call (the durable URL, or the
thrown error), and the generateFilename function. -/
structure AzureService where
  configured : Bool
  putResult : Except String String
  generateFilename : String → String → String

/-- The client-side environment of one addVersion call: the outcome of
reading the blob URL into a base64 data URL (fetch, response.blob and
FileReader, any of which may throw), and the outcome of reaching the
upload route over the network. -/
structure ClientEnv where
  blobRead : Except String String
  network : Except String Unit

/-- The JSON body addVersion posts to /api/upload-version. -/
structure UploadBody where
  imageUrl : String
  versionId : String
  type : String
  parent : String
  prompt : String
  metadata : List (String × String)

/-- The response of the upload route, reduced to the fields the client
reads: ok, azureUrl, azureBlobPath and the error message. -/
structure RouteResponse where
  ok : Bool
  azureUrl : String
  azureBlobPath : String
  errorMsg : String

/-- The POST handler of app/api/upload-version/route.ts: reject when a
required field is missing, reject with status 500 when Azure is not
configured, reject blob URLs, upload data:image URLs (a throwing
uploadImage is caught and becomes a 500 response), reject anything
else. -/
def postRoute (azure : AzureService) (body : UploadBody) : RouteResponse :=
  if body.imageUrl = "" || body.versionId = "" || body.type = "" then
    { ok := false, azureUrl := "", azureBlobPath := "",
      errorMsg := "Missing required fields: imageUrl, versionId, type" }
  else if !azure.configured then
    { ok := false, azureUrl := "", azureBlobPath := "",
      errorMsg := "Azure Storage is not configured" }
  else
    let filename := azure.generateFilename body.versionId body.type
    if strStartsWith body.imageUrl "blob:" then
      { ok := false, azureUrl := "", azureBlobPath := "",
        errorMsg := "Blob URLs cannot be processed server-side." }
    else if strStartsWith body.imageUrl "data:image" then
      match azure.putResult with
      | .ok azureUrl =>
        { ok := true, azureUrl := azureUrl, azureBlobPath := filename,
          errorMsg := "" }
      | .error e =>
        { ok := false, azureUrl := "", azureBlobPath := "", errorMsg := e }
    else
      { ok := false, azureUrl := "", azureBlobPath := "",
        errorMsg := "Invalid image format. Please provide a base64 data URL." }

/-- The request body addVersion builds for the new version, with the
JavaScript or-empty defaults on parent, prompt and metadata. -/
def postBody (v : ImageVersion) (base64 : String) : UploadBody :=
  { imageUrl := base64, versionId := v.id, type := v.type.toStr,
    parent := v.parent.getD "",
    prompt := (v.metadata.bind (fun m => m.prompt)).getD "",
    metadata := (v.metadata.bind (fun m => m.azureMetadata)).getD [] }

/-- Object spread of upd over base on association lists: values of upd
win on shared keys, new keys of upd are appended. -/
def assocMerge (base upd : List (String × String)) : List (String × String) :=
  base.map (fun kv =>
    (kv.1, ((upd.find? (fun kv2 => kv2.1 = kv.1)).map (fun kv2 => kv2.2)).getD kv.2))
  ++ upd.filter (fun kv2 => !(base.any (fun kv => kv.1 = kv2.1)))

/-- The metadata rewrite of the success branch of addVersion: keep the
existing bag and replace azureMetadata by the fixed descriptive entries
spread under the existing azureMetadata entries.  toISOString is
rendered as the decimal timestamp. -/
def mergeAzureMeta (v : ImageVersion) : MetaBag :=
  let old := v.metadata.getD { prompt := none, azureMetadata := none, other := [] }
  { old with
    azureMetadata := some (assocMerge
      [("versionId", v.id), ("type", v.type.toStr),
       ("parent", v.parent.getD ""),
       ("prompt", (v.metadata.bind (fun m => m.prompt)).getD ""),
       ("timestamp", natToDecimal v.timestamp)]
      ((v.metadata.bind (fun m => m.azureMetadata)).getD [])) }

/-- The materialization step inlined in addVersion: when imageUrl is a
transient blob handle, read it, post it to the upload route, and on an
ok response rewrite imageUrl, azureBlobPath and metadata; every failure
(read throw, network throw, non-ok response) is caught and the node is
returned unchanged.  A durable imageUrl skips the branch entirely. -/
def materialize (azure : AzureService) (env : ClientEnv) (v : ImageVersion) :
    ImageVersion :=
  if strStartsWith v.imageUrl "blob:" then
    match env.blobRead with
    | .error _ => v
    | .ok base64 =>
      match env.network with
      | .error _ => v
      | .ok _ =>
        let resp := postRoute azure (postBody v base64)
        if resp.ok then
          { v with imageUrl := resp.azureUrl,
                   azureBlobPath := some resp.azureBlobPath,
                   metadata := some (mergeAzureMeta v) }
        else v
  else v

/-- Whether the upload branch of addVersion is entered at all for this
node (the only place a remote call can be issued). -/
def attemptsUpload (v : ImageVersion) : Bool :=
  strStartsWith v.imageUrl "blob:"

/-- Whether the materialization of this node fails: the upload branch is
entered but no ok response comes back. -/
def materializeFails (azure : AzureService) (env : ClientEnv) (v : ImageVersion) :
    Bool :=
  strStartsWith v.imageUrl "blob:" &&
    (match env.blobRead with
     | .error _ => true
     | .ok base64 =>
       match env.network with
       | .error _ => true
       | .ok _ => !(postRoute azure (postBody v base64)).ok)

/-- The node addVersion finally commits. -/
def commitNode (azure : AzureService) (env : ClientEnv) (now : Nat)
    (draft : Draft) : ImageVersion :=
  materialize azure env (mkNewVersion now draft)

/-- addVersion: build the node, run the inlined materialization, then
commit it with the set call, making it the cursor and clearing the error
slot.  The body is wrapped in try-catch at both levels, so with every
failure caught the commit always runs and no exception escapes. -/
def addVersion (azure : AzureService) (env : ClientEnv) (now : Nat)
    (draft : Draft) (s : StoreState) : StoreState :=
  let newVersion := commitNode azure env now draft
  { s with versions := s.versions ++ [newVersion],
           currentVersion := some newVersion.id,
           error := none }

/-- deleteVersion: look the node up, attempt the best-effort remote
delete when it has an azureBlobPath (every outcome of that call is only
logged), then remove every node with that id and null the cursor when it
pointed at the deleted id.  The env argument is the outcome of the
remote delete call. -/
def deleteVersion (env : Except String Bool) (versionId : String)
    (s : StoreState) : StoreState :=
  let remoteOutcome :=
    match (s.versions.find? (fun v => v.id = versionId)).bind
        (fun v => v.azureBlobPath) with
    | some _ => (match env with | .ok _ => () | .error _ => ())
    | none => ()
  match remoteOutcome with
  | () =>
    { s with versions := s.versions.filter (fun v => v.id ≠ versionId),
             currentVersion :=
               if s.currentVersion = some versionId then none
               else s.currentVersion }

/-- A persisted timestamp: localStorage JSON yields a string, while a
freshly written in-memory value is a Date. -/
inductive RawTimestamp
  | str (s : String)
  | date (t : Nat)
deriving DecidableEq, Repr

/-- A persisted node as the rehydration callback receives it.  imageUrl
is optional here: a malformed persisted entry may lack the field, in
which case the callback dereferences undefined. -/
structure RawVersion where
  id : String
  type : VType
  timestamp : RawTimestamp
  imageUrl : Option String
  azureBlobPath : Option String
  metadata : Option MetaBag
  parent : Option String
deriving DecidableEq, Repr

/-- The persisted slice of the store (the partialize list): cursor, node
list and branch root. -/
structure RawState where
  currentVersion : Option String
  versions : List RawVersion
  branchRootId : Option String
deriving DecidableEq, Repr

/-- The forEach of onRehydrateStorage over the persisted nodes, in list
order: convert a string timestamp back with new Date (modelled by the
parse argument), and record whether any imageUrl is a blob handle.  A
node without a string imageUrl makes the callback throw a TypeError at
that iteration, modelled as the error case. -/
def normalizeVersions (parse : String → Nat) :
    List RawVersion → Except String (List ImageVersion × Bool)
  | [] => .ok ([], false)
  | v :: rest =>
    let t :=
      match v.timestamp with
      | .str s => parse s
      | .date t => t
    match v.imageUrl with
    | none => .error "TypeError: cannot read startsWith of undefined"
    | some url =>
      match normalizeVersions parse rest with
      | .error e => .error e
      | .ok (vs, flag) =>
        .ok ({ id := v.id, type := v.type, timestamp := t, imageUrl := url,
               azureBlobPath := v.azureBlobPath, metadata := v.metadata,
               parent := v.parent } :: vs,
             strStartsWith url "blob:" || flag)

/-- The onRehydrateStorage callback: with no state nothing happens; with
a state it marks hydration complete, normalizes the nodes, and performs
the clearVersions reset when any imageUrl was a blob handle.  The error
case is an exception escaping the callback. -/
def hydrateCallback (parse : String → Nat) :
    Option RawState → Except String (Option StoreState)
  | none => .ok none
  | some raw =>
    match normalizeVersions parse raw.versions with
    | .error e => .error e
    | .ok (vs, hasInvalidBlobUrls) =>
      let st : StoreState :=
        { currentVersion := raw.currentVersion, versions := vs,
          isProcessing := false, error := none, isHydrated := true,
          branchRootId := raw.branchRootId }
      .ok (some (if hasInvalidBlobUrls then clearVersions st else st))

/-- Decode the decimal digit characters produced by decDigitsFuel back
into the number, for the injectivity of id assignment. -/
def decodeDigits : List Char → Nat
  | [] => 0
  | c :: cs => (c.toNat - 48) + 10 * decodeDigits cs

theorem digitChar_decode : ∀ d : Fin 10, (Nat.digitChar d.val).toNat - 48 = d.val := by
  decide

theorem decode_decDigitsFuel :
    ∀ fuel n, n ≤ fuel → decodeDigits (decDigitsFuel fuel n) = n := by
  intro fuel
  induction fuel with
  | zero =>
    intro n h
    have h0 : n = 0 := Nat.le_zero.mp h
    subst h0
    rfl
  | succ f ih =>
    intro n h
    by_cases h0 : n = 0
    · subst h0
      rfl
    · have hd : n % 10 < 10 := Nat.mod_lt _ (by norm_num)
      have hrec : n / 10 ≤ f := by
        have := Nat.div_lt_self (Nat.pos_of_ne_zero h0) (by norm_num : 1 < 10)
        omega
      calc decodeDigits (decDigitsFuel (f+1) n)
          = (Nat.digitChar (n % 10)).toNat - 48
              + 10 * decodeDigits (decDigitsFuel f (n / 10)) := by
            simp [decDigitsFuel, h0, decodeDigits]
        _ = n % 10 + 10 * (n / 10) := by
            rw [digitChar_decode ⟨n % 10, hd⟩, ih _ hrec]
        _ = n := Nat.mod_add_div n 10

theorem decDigitsFuel_inj {a b : Nat} (h : decDigitsFuel a a = decDigitsFuel b b) :
    a = b := by
  have h1 := decode_decDigitsFuel a a le_rfl
  have h2 := decode_decDigitsFuel b b le_rfl
  rw [h] at h1
  omega

theorem natToDecimal_inj {a b : Nat} (h : natToDecimal a = natToDecimal b) :
    a = b := by
  unfold natToDecimal at h
  by_cases ha : a = 0 <;> by_cases hb : b = 0
  · omega
  · rw [if_pos ha, if_neg hb] at h
    have hdata := congrArg String.data h
    have hrev : decDigitsFuel b b = ['0'] := by
      have : ['0'] = (decDigitsFuel b b).reverse := hdata
      have := congrArg List.reverse this
      simpa using this.symm
    have := decode_decDigitsFuel b b le_rfl
    rw [hrev] at this
    simp [decodeDigits] at this
    omega
  · rw [if_neg ha, if_pos hb] at h
    have hdata := congrArg String.data h.symm
    have hrev : decDigitsFuel a a = ['0'] := by
      have : ['0'] = (decDigitsFuel a a).reverse := hdata
      have := congrArg List.reverse this
      simpa using this.symm
    have := decode_decDigitsFuel a a le_rfl
    rw [hrev] at this
    simp [decodeDigits] at this
    omega
  · rw [if_neg ha, if_neg hb] at h
    have hdata := congrArg String.data h
    have hlist : (decDigitsFuel a a).reverse = (decDigitsFuel b b).reverse := hdata
    have := congrArg List.reverse hlist
    simp at this
    exact decDigitsFuel_inj this

theorem mkId_inj {a b : Nat} (h : mkId a = mkId b) : a = b := by
  unfold mkId at h
  have hdata := congrArg String.data h
  rw [String.data_append, String.data_append] at hdata
  have := List.append_cancel_left hdata
  exact natToDecimal_inj (String.ext this)

theorem materialize_id (azure : AzureService) (env : ClientEnv) (v : ImageVersion) :
    (materialize azure env v).id = v.id := by
  unfold materialize
  by_cases hb : strStartsWith v.imageUrl "blob:" = true
  · rw [if_pos hb]
    cases henv : env.blobRead with
    | error e => rfl
    | ok base64 =>
      cases hnet : env.network with
      | error e => simp
      | ok u =>
        simp only []
        by_cases hok : (postRoute azure (postBody v base64)).ok = true
        · rw [if_pos hok]
        · rw [if_neg hok]
  · rw [if_neg hb]

theorem materialize_of_fails (azure : AzureService) (env : ClientEnv)
    (v : ImageVersion) (h : materializeFails azure env v = true) :
    materialize azure env v = v := by
  unfold materializeFails at h
  unfold materialize
  by_cases hb : strStartsWith v.imageUrl "blob:" = true
  · rw [if_pos hb]
    cases henv : env.blobRead with
    | error e => rfl
    | ok base64 =>
      cases hnet : env.network with
      | error e => simp
      | ok u =>
        rw [hb, henv, hnet] at h
        simp at h
        simp only []
        rw [if_neg (by simp [h])]
  · rw [if_neg hb]

/-- One recorded addVersion call: its environments, its Date.now value
and its draft. -/
structure AddCall where
  azure : AzureService
  env : ClientEnv
  now : Nat
  draft : Draft

/-- A sequence of addVersion calls applied to a starting state in
order. -/
def runAdds (calls : List AddCall) (s : StoreState) : StoreState :=
  calls.foldl (fun st c => addVersion c.azure c.env c.now c.draft st) s

theorem runAdds_versions (calls : List AddCall) :
    ∀ s : StoreState, (runAdds calls s).versions
      = s.versions ++ calls.map (fun c => commitNode c.azure c.env c.now c.draft) := by
  induction calls with
  | nil => intro s; simp [runAdds]
  | cons c cs ih =>
    intro s
    have hstep : runAdds (c :: cs) s
        = runAdds cs (addVersion c.azure c.env c.now c.draft s) := rfl
    rw [hstep, ih]
    simp [addVersion]

/-- C9 counterexample input: a service with no remote configuration and
an inert client environment. -/
def dupAzure : AzureService :=
  { configured := false, putResult := .error "unconfigured",
    generateFilename := fun a b => a ++ "_" ++ b ++ ".jpg" }

/-- C9 counterexample input: both client reads fail (irrelevant for a
durable draft). -/
def dupEnv : ClientEnv :=
  { blobRead := .error "unused", network := .error "unused" }

/-- C9 counterexample input: a draft with a durable image reference. -/
def dupDraft : Draft :=
  { type := .upload, imageUrl := "https://img/x", azureBlobPath := none,
    metadata := none, parent := none }

/-- C9 counterexample input: an addVersion call at Date.now() = 5. -/
def dupCall : AddCall :=
  { azure := dupAzure, env := dupEnv, now := 5, draft := dupDraft }

/-- C9 counterexample: two addVersion calls that observe the same
Date.now() millisecond commit two nodes with the same id v5, so the ids
in the store are not pairwise distinct. -/
theorem addVersion_same_time_duplicate_ids :
    ¬ (((runAdds [dupCall, dupCall] emptyState).versions.map
          (fun v => v.id)).Pairwise (fun a b => a ≠ b)) := by
  decide

/-- C9 amended: ids are creation-time based (v followed by Date.now() in
decimal), so an addVersion call appends exactly one node with the id
derived from its clock value and never rewrites an existing id; the
committed ids are pairwise distinct for every sequence of calls whose
clock values are pairwise distinct, while two calls within the same
millisecond receive the same id. -/
theorem addVersion_id_assignment :
    (∀ (azure : AzureService) (env : ClientEnv) (now : Nat) (draft : Draft)
        (s : StoreState),
      (addVersion azure env now draft s).versions.map (fun v => v.id)
        = s.versions.map (fun v => v.id) ++ [mkId now])
    ∧ ∀ calls : List AddCall,
        calls.Pairwise (fun c1 c2 => c1.now ≠ c2.now) →
        ((runAdds calls emptyState).versions.map (fun v => v.id)).Pairwise
          (fun a b => a ≠ b) := by
  constructor
  · intro azure env now draft s
    simp [addVersion, commitNode, materialize_id, mkNewVersion]
  · intro calls h
    rw [runAdds_versions calls emptyState]
    have hmap : (calls.map (fun c => commitNode c.azure c.env c.now c.draft)).map
          (fun v => v.id) = calls.map (fun c => mkId c.now) := by
      rw [List.map_map]
      refine List.map_congr_left ?_
      intro c _
      simp [commitNode, materialize_id, mkNewVersion]
    simp only [emptyState, List.nil_append]
    rw [hmap, List.pairwise_map]
    exact h.imp (fun hne heq => hne (mkId_inj heq))

/-- C9 witness: two calls at distinct milliseconds 5 and 6 commit nodes
with the distinct ids v5 and v6. -/
theorem addVersion_id_assignment_witness :
    ((runAdds [dupCall, { dupCall with now := 6 }] emptyState).versions.map
        (fun v => v.id)).Pairwise (fun a b => a ≠ b)
    ∧ (runAdds [dupCall, { dupCall with now := 6 }] emptyState).versions.map
        (fun v => v.id) = ["v5", "v6"] :=
  ⟨addVersion_id_assignment.2 [dupCall, { dupCall with now := 6 }]
      (by simp [dupCall]),
    by decide⟩

/-- C3: addVersion always commits: the materialized node is appended to
the set and becomes the cursor with a cleared error slot (both try-catch
levels swallow every upload failure, so the model is a total function
and no exception escapes); and whenever materialization fails the
committed node is exactly the draft with its assigned id and timestamp,
so imageUrl keeps its original, possibly transient, value and
azureBlobPath keeps the absent value of the draft. -/
theorem addVersion_commits (azure : AzureService) (env : ClientEnv) (now : Nat)
    (draft : Draft) (s : StoreState) :
    ((addVersion azure env now draft s).versions
        = s.versions ++ [commitNode azure env now draft]
      ∧ (addVersion azure env now draft s).currentVersion = some (mkId now)
      ∧ (addVersion azure env now draft s).error = none)
    ∧ (materializeFails azure env (mkNewVersion now draft) = true →
        commitNode azure env now draft = mkNewVersion now draft) := by
  refine ⟨⟨rfl, ?_, rfl⟩, fun h => materialize_of_fails _ _ _ h⟩
  show some (commitNode azure env now draft).id = some (mkId now)
  rw [commitNode, materialize_id]
  rfl

/-- C3 witness inputs: a configured service whose put call throws a
permission error. -/
def permAzure : AzureService :=
  { configured := true, putResult := .error "PermissionDenied",
    generateFilename := fun a b => a ++ "_" ++ b ++ ".jpg" }

/-- C3 witness inputs: the blob read and the network both succeed, so the
failure comes from the permission error alone. -/
def permEnv : ClientEnv :=
  { blobRead := .ok "data:image/png;base64,AAAA", network := .ok () }

/-- C3 witness inputs: a draft holding a transient blob handle. -/
def permDraft : Draft :=
  { type := .flux, imageUrl := "blob:http-local/1", azureBlobPath := none,
    metadata := none, parent := none }

/-- C3 witness: with the put call throwing a permission error, the node
is committed unchanged, keeps the transient imageUrl of the draft, has
no azureBlobPath, and is the cursor. -/
theorem addVersion_commits_witness :
    materializeFails permAzure permEnv (mkNewVersion 5 permDraft) = true
    ∧ (addVersion permAzure permEnv 5 permDraft emptyState).versions
        = [mkNewVersion 5 permDraft]
    ∧ (addVersion permAzure permEnv 5 permDraft emptyState).currentVersion
        = some "v5"
    ∧ (addVersion permAzure permEnv 5 permDraft emptyState).error = none
    ∧ (mkNewVersion 5 permDraft).imageUrl = "blob:http-local/1"
    ∧ (mkNewVersion 5 permDraft).azureBlobPath = none := by
  have h := addVersion_commits permAzure permEnv 5 permDraft emptyState
  have hfail : materializeFails permAzure permEnv (mkNewVersion 5 permDraft)
      = true := by decide
  refine ⟨hfail, ?_, by decide, h.1.2.2, by decide, by decide⟩
  rw [h.1.1, h.2 hfail]
  rfl

theorem postRoute_unconfigured (azure : AzureService) (body : UploadBody)
    (h : azure.configured = false) : (postRoute azure body).ok = false := by
  unfold postRoute
  by_cases h1 : (body.imageUrl = "" || body.versionId = "" || body.type = "") = true
  · rw [if_pos h1]
  · rw [if_neg h1, h]
    simp

theorem materialize_unconfigured (azure : AzureService) (env : ClientEnv)
    (v : ImageVersion) (h : azure.configured = false) :
    materialize azure env v = v := by
  unfold materialize
  by_cases hb : strStartsWith v.imageUrl "blob:" = true
  · rw [if_pos hb]
    cases henv : env.blobRead with
    | error e => rfl
    | ok base64 =>
      cases hnet : env.network with
      | error e => simp
      | ok u =>
        simp only []
        rw [if_neg (by simp [postRoute_unconfigured azure _ h])]
  · rw [if_neg hb]

/-- C5: when the remote store is not configured, the upload route always
answers with a non-ok status, so addVersion commits the draft completely
unchanged (imageUrl included), makes it the cursor and clears the error
slot: the add succeeds with zero remote configuration. -/
theorem addVersion_unconfigured (azure : AzureService) (env : ClientEnv)
    (now : Nat) (draft : Draft) (s : StoreState)
    (h : azure.configured = false) :
    (addVersion azure env now draft s).versions
        = s.versions ++ [mkNewVersion now draft]
    ∧ (addVersion azure env now draft s).currentVersion = some (mkId now)
    ∧ (mkNewVersion now draft).imageUrl = draft.imageUrl
    ∧ (addVersion azure env now draft s).error = none := by
  have hc : commitNode azure env now draft = mkNewVersion now draft :=
    materialize_unconfigured azure env _ h
  have h0 := addVersion_commits azure env now draft s
  exact ⟨by rw [h0.1.1, hc], h0.1.2.1, rfl, h0.1.2.2⟩

/-- C5 witness: the unconfigured service from the C9 inputs, applied to a
blob draft, commits it with the blob imageUrl untouched. -/
theorem addVersion_unconfigured_witness :
    dupAzure.configured = false
    ∧ (addVersion dupAzure permEnv 7 permDraft emptyState).versions
        = [mkNewVersion 7 permDraft]
    ∧ (addVersion dupAzure permEnv 7 permDraft emptyState).currentVersion
        = some "v7"
    ∧ (mkNewVersion 7 permDraft).imageUrl = "blob:http-local/1" := by
  have h := addVersion_unconfigured dupAzure permEnv 7 permDraft emptyState
    (by decide)
  exact ⟨by decide, h.1, by decide, by decide⟩

/-- C8: materialization is an idempotent no-op on a durable node: when
imageUrl is not a transient blob handle the upload branch is never
entered (no upload call), the node is returned unchanged, and a second
materialization under any environments changes neither imageUrl nor
azureBlobPath. -/
theorem materialize_idempotent (azure azure2 : AzureService)
    (env env2 : ClientEnv) (v : ImageVersion)
    (h : strStartsWith v.imageUrl "blob:" = false) :
    materialize azure env v = v ∧ attemptsUpload v = false
    ∧ materialize azure2 env2 (materialize azure env v) = v := by
  have h1 : materialize azure env v = v := by
    unfold materialize
    rw [if_neg (by simp [h])]
  refine ⟨h1, by simp [attemptsUpload, h], ?_⟩
  rw [h1]
  unfold materialize
  rw [if_neg (by simp [h])]

/-- C8 witness input: a node already backed by a durable URL. -/
def durableNode : ImageVersion :=
  { id := "v9", type := .color, timestamp := 9,
    imageUrl := "https://acct.blob.core.windows.net/images/v9.jpg",
    azureBlobPath := some "images/v9.jpg", metadata := none, parent := none }

/-- C8 witness: materializing the durable node twice, under different
service environments, changes nothing. -/
theorem materialize_idempotent_witness :
    strStartsWith durableNode.imageUrl "blob:" = false
    ∧ (materialize dupAzure dupEnv durableNode = durableNode
      ∧ attemptsUpload durableNode = false
      ∧ materialize permAzure permEnv (materialize dupAzure dupEnv durableNode)
          = durableNode) :=
  ⟨by decide, materialize_idempotent dupAzure permAzure dupEnv permEnv
      durableNode (by decide)⟩

/-- C4 counterexample input: a persisted node missing its imageUrl
field. -/
def badRawVersion : RawVersion :=
  { id := "p1", type := .upload, timestamp := .str "2024-01-01T00:00:00Z",
    imageUrl := none, azureBlobPath := none, metadata := none, parent := none }

/-- C4 counterexample input: a persisted state holding the malformed
node. -/
def badRaw : RawState :=
  { currentVersion := some "p1", versions := [badRawVersion],
    branchRootId := none }

/-- C4 counterexample: hydrating a persisted state with a node whose
imageUrl is missing makes the rehydration callback dereference undefined
and throw, instead of taking the reset path: hydration does not complete
without an exception on every persisted input. -/
theorem hydrate_throws_on_malformed :
    hydrateCallback (fun _ => 0) (some badRaw)
      = .error "TypeError: cannot read startsWith of undefined" := by
  rfl

theorem normalizeVersions_ok_of_wellshaped (parse : String → Nat) :
    ∀ l : List RawVersion, (∀ v ∈ l, v.imageUrl.isSome = true) →
      ∃ p, normalizeVersions parse l = .ok p := by
  intro l
  induction l with
  | nil => intro _; exact ⟨([], false), rfl⟩
  | cons v vs ih =>
    intro h
    obtain ⟨u, hu⟩ := Option.isSome_iff_exists.mp (h v (by simp))
    obtain ⟨⟨tl, flag⟩, htl⟩ := ih (fun w hw => h w (by simp [hw]))
    refine ⟨({ id := v.id, type := v.type,
               timestamp := match v.timestamp with
                            | .str s => parse s
                            | .date t => t,
               imageUrl := u, azureBlobPath := v.azureBlobPath,
               metadata := v.metadata, parent := v.parent } :: tl,
             strStartsWith u "blob:" || flag), ?_⟩
    simp only [normalizeVersions, hu, htl]

/-- C4 amended: hydration completes without an exception for every
persisted state whose nodes all carry a string imageUrl (string
timestamps are normalized and blob handles divert to the reset path),
but a persisted node with imageUrl absent makes the callback throw, and
that error does not take the reset path. -/
theorem hydrate_wellshaped_no_throw (parse : String → Nat) (raw : RawState)
    (h : ∀ v ∈ raw.versions, v.imageUrl.isSome = true) :
    (hydrateCallback parse (some raw)).isOk = true := by
  obtain ⟨⟨vs, flag⟩, hp⟩ := normalizeVersions_ok_of_wellshaped parse raw.versions h
  simp only [hydrateCallback, hp]
  rfl

/-- C4 witness input: a well-shaped persisted node with a durable URL and
a string timestamp. -/
def goodRawVersion : RawVersion :=
  { id := "p2", type := .upload, timestamp := .str "2024-01-02T00:00:00Z",
    imageUrl := some "https://x/p2.jpg", azureBlobPath := some "images/p2.jpg",
    metadata := none, parent := none }

/-- C4 witness: hydrating a well-shaped persisted state raises no
exception. -/
theorem hydrate_wellshaped_no_throw_witness :
    (hydrateCallback (fun _ => 0)
      (some { currentVersion := some "p2", versions := [goodRawVersion],
              branchRootId := none })).isOk = true :=
  hydrate_wellshaped_no_throw (fun _ => 0)
    { currentVersion := some "p2", versions := [goodRawVersion],
      branchRootId := none }
    (by decide)

theorem normalizeVersions_flag (parse : String → Nat) :
    ∀ (l : List RawVersion) (vs : List ImageVersion) (flag : Bool),
      normalizeVersions parse l = .ok (vs, flag) →
      (∃ v ∈ l, ∃ u, v.imageUrl = some u ∧ strStartsWith u "blob:" = true) →
      flag = true := by
  intro l
  induction l with
  | nil => intro vs flag _ hex; simp at hex
  | cons v rest ih =>
    intro vs flag hok hex
    simp only [normalizeVersions] at hok
    cases hu : v.imageUrl with
    | none => rw [hu] at hok; exact absurd hok (by simp)
    | some url =>
      rw [hu] at hok
      cases hrest : normalizeVersions parse rest with
      | error e => rw [hrest] at hok; exact absurd hok (by simp)
      | ok p =>
        obtain ⟨tl, fl⟩ := p
        rw [hrest] at hok
        simp only [Except.ok.injEq, Prod.mk.injEq] at hok
        obtain ⟨w, hw, u, huw, hub⟩ := hex
        rcases List.mem_cons.mp hw with hwv | hwrest
        · subst hwv
          rw [hu] at huw
          cases huw
          rw [← hok.2, hub]
          simp
        · have : fl = true := ih tl fl hrest ⟨w, hwrest, u, huw, hub⟩
          rw [← hok.2, this]
          simp

/-- C6: whenever hydration completes on a persisted state containing at
least one transient blob-handle imageUrl, the store has been fully reset
as by clearVersions: the version set is empty, the cursor is null (so
getCurrentVersion is null) and the branch root is cleared, with no
partial repair. -/
theorem hydrate_blob_resets (parse : String → Nat) (raw : RawState)
    (s' : StoreState)
    (hok : hydrateCallback parse (some raw) = .ok (some s'))
    (hblob : ∃ v ∈ raw.versions, ∃ u, v.imageUrl = some u
      ∧ strStartsWith u "blob:" = true) :
    s'.versions = [] ∧ s'.currentVersion = none
    ∧ getCurrentVersion s' = none ∧ s'.branchRootId = none := by
  simp only [hydrateCallback] at hok
  cases hn : normalizeVersions parse raw.versions with
  | error e => rw [hn] at hok; exact absurd hok (by simp)
  | ok p =>
    obtain ⟨vs, flag⟩ := p
    rw [hn] at hok
    have hflag : flag = true := normalizeVersions_flag parse raw.versions vs flag hn hblob
    subst hflag
    simp only [Except.ok.injEq, Option.some.injEq] at hok
    rw [← hok]
    simp [clearVersions, getCurrentVersion]

/-- C6 witness input: a well-shaped persisted state whose one node still
points at a transient blob handle. -/
def blobRaw : RawState :=
  { currentVersion := some "p3",
    versions := [{ id := "p3", type := .upload,
                   timestamp := .str "2024-01-03T00:00:00Z",
                   imageUrl := some "blob:http-local/3",
                   azureBlobPath := none, metadata := none, parent := none }],
    branchRootId := some "p3" }

/-- The store state the C6 witness hydration must end in: the full
clearVersions reset with the hydration flag set. -/
def blobRawReset : StoreState :=
  { currentVersion := none, versions := [], isProcessing := false,
    error := none, isHydrated := true, branchRootId := none }

/-- C6 witness: hydrating that state completes and leaves an empty
version set, a null cursor and no branch root. -/
theorem hydrate_blob_resets_witness :
    hydrateCallback (fun _ => 0) (some blobRaw) = .ok (some blobRawReset)
    ∧ (blobRawReset.versions = [] ∧ blobRawReset.currentVersion = none
      ∧ getCurrentVersion blobRawReset = none
      ∧ blobRawReset.branchRootId = none) :=
  ⟨by rfl,
    hydrate_blob_resets (fun _ => 0) blobRaw blobRawReset (by rfl)
      ⟨{ id := "p3", type := .upload,
         timestamp := .str "2024-01-03T00:00:00Z",
         imageUrl := some "blob:http-local/3", azureBlobPath := none,
         metadata := none, parent := none },
        by simp [blobRaw], "blob:http-local/3", rfl, by decide⟩⟩

/-- C7: deleteVersion removes every node carrying the id from the
history, regardless of the outcome of the best-effort remote delete
(the env argument, whose result is only logged); the cursor becomes null
exactly when it pointed at the deleted id and is untouched otherwise. -/
theorem deleteVersion_spec (env : Except String Bool) (versionId : String)
    (s : StoreState) :
    (deleteVersion env versionId s).versions
        = s.versions.filter (fun v => v.id ≠ versionId)
    ∧ (∀ v ∈ (deleteVersion env versionId s).versions, v.id ≠ versionId)
    ∧ (deleteVersion env versionId s).currentVersion
        = (if s.currentVersion = some versionId then none else s.currentVersion)
    ∧ (s.currentVersion = some versionId →
        getCurrentVersion (deleteVersion env versionId s) = none) := by
  refine ⟨rfl, ?_, rfl, ?_⟩
  · intro v hv
    have := (List.mem_filter.mp hv).2
    exact of_decide_eq_true this
  · intro h
    simp [getCurrentVersion, deleteVersion, h]

/-- C7 witness inputs: a store with two chained nodes whose cursor is the
second node. -/
def delNodeA : ImageVersion :=
  { id := "d1", type := .upload, timestamp := 1, imageUrl := "https://d/1",
    azureBlobPath := some "images/d1.jpg", metadata := none, parent := none }

/-- C7 witness inputs: the second node, the cursor of the witness
store. -/
def delNodeB : ImageVersion :=
  { id := "d2", type := .crop, timestamp := 2, imageUrl := "https://d/2",
    azureBlobPath := some "images/d2.jpg", metadata := none,
    parent := some "d1" }

/-- C7 witness inputs: the two-node store with the cursor at d2. -/
def delState : StoreState :=
  { emptyState with
    versions := [delNodeA, delNodeB],
    currentVersion := some "d2" }

/-- C7 witness: with the remote delete throwing, deleting the cursor d2
still removes it locally and nulls the cursor; the theorem also yields
that deleting the non-cursor d1 leaves the cursor at d2. -/
theorem deleteVersion_spec_witness :
    (deleteVersion (.error "net down") "d2" delState).versions = [delNodeA]
    ∧ (deleteVersion (.error "net down") "d2" delState).currentVersion = none
    ∧ getCurrentVersion (deleteVersion (.error "net down") "d2" delState) = none
    ∧ (deleteVersion (.ok true) "d1" delState).currentVersion = some "d2" := by
  have h := deleteVersion_spec (.error "net down") "d2" delState
  have h2 := deleteVersion_spec (.ok true) "d1" delState
  refine ⟨by rw [h.1]; decide, by rw [h.2.2.1]; decide,
    h.2.2.2 (by decide), by rw [h2.2.2.1]; decide⟩

/-- C10: deleteVersion never touches branchRootId, even when the deleted
id is the branch root itself; afterwards getCurrentRootId keeps
returning the (now possibly dangling) branch root id without consulting
the cursor walk, for every fuel. -/
theorem deleteVersion_branchRoot_frame (env : Except String Bool)
    (versionId : String) (s : StoreState) (r : String)
    (h : s.branchRootId = some r) (hr : r ≠ "") :
    (deleteVersion env versionId s).branchRootId = some r
    ∧ ∀ fuel, getCurrentRootIdFuel (deleteVersion env versionId s) fuel
        = some (some r) := by
  have hb : (deleteVersion env versionId s).branchRootId = some r := h
  refine ⟨hb, fun fuel => ?_⟩
  unfold getCurrentRootIdFuel
  rw [hb]
  simp [strTruthy, hr]

/-- C10 witness inputs: a one-node store whose branch root is that node
r1. -/
def brState : StoreState :=
  { emptyState with
    versions := [{ id := "r1", type := .upload, timestamp := 1,
                   imageUrl := "https://r/1", azureBlobPath := none,
                   metadata := none, parent := none }],
    currentVersion := some "r1", branchRootId := some "r1" }

/-- C10 witness: deleting the branch-root node r1 empties the set yet
leaves branchRootId at r1, and getCurrentRootId still answers r1. -/
theorem deleteVersion_branchRoot_frame_witness :
    (deleteVersion (.ok true) "r1" brState).versions = []
    ∧ (deleteVersion (.ok true) "r1" brState).branchRootId = some "r1"
    ∧ getCurrentRootIdFuel (deleteVersion (.ok true) "r1" brState) 2
        = some (some "r1") := by
  have h := deleteVersion_branchRoot_frame (.ok true) "r1" brState "r1"
    (by decide) (by decide)
  exact ⟨by decide, h.1, h.2 2⟩

theorem filterSameRootAux_some (all : List ImageVersion) (fuel : Nat)
    (rootId : String) :
    ∀ (rest t : List ImageVersion),
      filterSameRootAux all fuel rootId rest = some t →
      t = rest.filter (fun v => versionRootIdFuel all fuel v = some rootId) := by
  intro rest
  induction rest with
  | nil =>
    intro t h
    simp only [filterSameRootAux, Option.some.injEq] at h
    simp [← h]
  | cons v vs ih =>
    intro t h
    simp only [filterSameRootAux] at h
    cases hw : walkFuel all fuel v with
    | none => rw [hw] at h; exact absurd h (by simp)
    | some r =>
      rw [hw] at h
      cases ha : filterSameRootAux all fuel rootId vs with
      | none => rw [ha] at h; exact absurd h (by simp)
      | some tail =>
        rw [ha] at h
        simp only [Option.some.injEq] at h
        have htail := ih tail ha
        rw [List.filter_cons]
        by_cases hr : r.id = rootId
        · rw [if_pos hr] at h
          have hcond : decide (versionRootIdFuel all fuel v = some rootId)
              = true := by
            simp [versionRootIdFuel, hw, hr]
          rw [hcond]
          simp [← h, htail]
        · rw [if_neg hr] at h
          have hcond : decide (versionRootIdFuel all fuel v = some rootId)
              = false := by
            simp [versionRootIdFuel, hw, hr]
          rw [hcond]
          simp [← h, htail]

/-- C2: whenever getCurrentVersionHistory completes (every parent walk
finishes within the fuel), its result is exactly the versions of the
store whose own root walk resolves to getCurrentRootId (as a permutation
of that filter of the node list), sorted ascending by timestamp. -/
theorem getCurrentVersionHistory_spec (s : StoreState) (fuel : Nat)
    (rootId : String) (l : List ImageVersion)
    (hroot : getCurrentRootIdFuel s fuel = some (some rootId))
    (hl : getCurrentVersionHistoryFuel s fuel = some l) :
    l.Perm (s.versions.filter
      (fun v => versionRootIdFuel s.versions fuel v = some rootId))
    ∧ List.Sorted timeLe l := by
  unfold getCurrentVersionHistoryFuel at hl
  rw [hroot] at hl
  simp only [] at hl
  cases ha : filterSameRootAux s.versions fuel rootId s.versions with
  | none => rw [ha] at hl; exact absurd hl (by simp)
  | some t =>
    rw [ha] at hl
    simp only [Option.map_some', Option.some.injEq] at hl
    have ht := filterSameRootAux_some s.versions fuel rootId s.versions t ha
    constructor
    · rw [← hl, ← ht]
      exact List.perm_insertionSort timeLe t
    · rw [← hl]
      exact List.sorted_insertionSort timeLe t

/-- C2 witness inputs: the root upload node A of the scenario chain. -/
def chainA : ImageVersion :=
  { id := "va", type := .upload, timestamp := 10, imageUrl := "https://c/a",
    azureBlobPath := none, metadata := none, parent := none }

/-- C2 witness inputs: the ai-edit child B of A. -/
def chainB : ImageVersion :=
  { id := "vb", type := .flux, timestamp := 20, imageUrl := "https://c/b",
    azureBlobPath := none, metadata := none, parent := some "va" }

/-- C2 witness inputs: the color child C of B, the cursor. -/
def chainC : ImageVersion :=
  { id := "vc", type := .color, timestamp := 30, imageUrl := "https://c/c",
    azureBlobPath := none, metadata := none, parent := some "vb" }

/-- C2 witness inputs: an unrelated second upload chain in the same
store. -/
def chainOther : ImageVersion :=
  { id := "vo", type := .upload, timestamp := 15, imageUrl := "https://c/o",
    azureBlobPath := none, metadata := none, parent := none }

/-- C2 witness inputs: the store holding both chains with the cursor at
C. -/
def chainState : StoreState :=
  { emptyState with
    versions := [chainC, chainOther, chainA, chainB],
    currentVersion := some "vc" }

/-- C2 witness: with the cursor at C the root resolves to A, the history
is exactly [A, B, C] in ascending creation order, and it is a
permutation of the same-root filter, sorted; the unrelated chain is
excluded. -/
theorem getCurrentVersionHistory_spec_witness :
    getCurrentRootIdFuel chainState 4 = some (some "va")
    ∧ getCurrentVersionHistoryFuel chainState 4 = some [chainA, chainB, chainC]
    ∧ ([chainA, chainB, chainC].Perm (chainState.versions.filter
        (fun v => versionRootIdFuel chainState.versions 4 v = some "va"))
      ∧ List.Sorted timeLe [chainA, chainB, chainC]) :=
  ⟨by decide, by decide,
    getCurrentVersionHistory_spec chainState 4 "va" [chainA, chainB, chainC]
      (by decide) (by decide)⟩
